import Mathlib

/-!
Verification of the `opendal::raw` module surface against its design
specification.  The repository ships `src/docs/rust/opendal/raw/sidebar-items.js`,
a single JavaScript statement assigning a literal record to
`window.SIDEBAR_ITEMS`.  The record maps item categories (`constant`, `enum`,
`fn`, `mod`, `struct`, `trait`, `type`) to arrays of `[name, description]`
pairs.  We embed that literal verbatim, and model the behavioural parts of the
design (path normalization, layered forwarding, capability merge, batch
semantics, errors, presign) that the sidebar only names.
-/

/-- One `[name, description]` pair of the `SIDEBAR_ITEMS` record. -/
structure SidebarEntry where
  name : String
  descr : String
deriving DecidableEq, Repr

/-- The `constant` array of the record, verbatim. -/
def constantItems : List SidebarEntry := [
  ⟨"VERSION", "VERSION is the compiled version of OpenDAL."⟩]

/-- The `enum` array of the record, verbatim. -/
def enumItems : List SidebarEntry := [
  ⟨"AccessorCapability", "AccessorCapability describes accessor’s advanced capability."⟩,
  ⟨"AccessorHint", "AccessorHint describes accessor’s hint."⟩,
  ⟨"AsyncBody", "Body used in async HTTP requests."⟩,
  ⟨"BatchedReply", "Batch results of `batch` operations."⟩,
  ⟨"Operation", "Operation is the name for APIs in `Accessor`."⟩]

/-- The `fn` array of the record, verbatim. -/
def fnItems : List SidebarEntry := [
  ⟨"build_abs_path", "build_abs_path will build an absolute path with root."⟩,
  ⟨"build_header_value", "Build header value from given string."⟩,
  ⟨"build_rel_path", "build_rel_path will build a relative path towards root."⟩,
  ⟨"build_rooted_abs_path", "build_rooted_abs_path will build an absolute path with root."⟩,
  ⟨"format_authorization_by_basic", "format authorization header by basic auth."⟩,
  ⟨"format_authorization_by_bearer", "format authorization header by bearer token."⟩,
  ⟨"format_content_md5", "format content md5 header by given input."⟩,
  ⟨"get_basename", "Get basename from path."⟩,
  ⟨"get_parent", "Get parent from path."⟩,
  ⟨"new_json_deserialize_error", "Parse json deserialize error into opendal::Error."⟩,
  ⟨"new_json_serialize_error", "Parse json serialize error into opendal::Error."⟩,
  ⟨"new_request_build_error", "Create a new error happened during building request."⟩,
  ⟨"new_request_credential_error", "Create a new error happened during signing request."⟩,
  ⟨"new_request_sign_error", "Create a new error happened during signing request."⟩,
  ⟨"new_xml_deserialize_error", "Parse xml deserialize error into opendal::Error."⟩,
  ⟨"normalize_path", "Make sure all operation are constructed by normalized path:"⟩,
  ⟨"normalize_root", "Make sure root is normalized to style like `/abc/def/`."⟩,
  ⟨"parse_content_disposition", "Parse Content-Disposition for header map"⟩,
  ⟨"parse_content_length", "Parse content length from header map."⟩,
  ⟨"parse_content_md5", "Parse content md5 from header map."⟩,
  ⟨"parse_content_range", "Parse content range from header map."⟩,
  ⟨"parse_content_type", "Parse content type from header map."⟩,
  ⟨"parse_datetime_from_from_timestamp_millis", "parse datetime from given timestamp_millis"⟩,
  ⟨"parse_datetime_from_rfc2822", "Parse dateimt from rfc2822."⟩,
  ⟨"parse_datetime_from_rfc3339", "Parse dateimt from rfc3339."⟩,
  ⟨"parse_error_response", "parse_error_response will parse response into `ErrorResponse`."⟩,
  ⟨"parse_etag", "Parse etag from header map."⟩,
  ⟨"parse_into_metadata", "parse_into_metadata will parse standards http headers into Metadata."⟩,
  ⟨"parse_last_modified", "Parse last modified from header map."⟩,
  ⟨"parse_location", "Parse redirect location from header map"⟩,
  ⟨"percent_encode_path", "percent_encode_path will do percent encoding for http encode path."⟩,
  ⟨"validate_path", "Validate given path is match with given EntryMode."⟩]

/-- The `mod` array of the record, verbatim. -/
def modItems : List SidebarEntry := [
  ⟨"adapters", "Providing adapters and its implementations."⟩,
  ⟨"oio", "`oio` provides OpenDAL’s raw traits and types that opendal returns as output."⟩]

/-- The `struct` array of the record, verbatim. -/
def structItems : List SidebarEntry := [
  ⟨"AccessorInfo", "Metadata for accessor, users can use this metadata to get information of underlying backend."⟩,
  ⟨"BytesContentRange", "BytesContentRange is the content range of bytes."⟩,
  ⟨"BytesRange", "BytesRange(offset, size) carries a range of content."⟩,
  ⟨"ErrorResponse", "ErrorResponse carries HTTP status code, headers and body."⟩,
  ⟨"HttpClient", "HttpClient that used across opendal."⟩,
  ⟨"IncomingAsyncBody", "IncomingAsyncBody carries the content returned by remote servers."⟩,
  ⟨"PresignedRequest", "PresignedRequest is a presigned request return by `presign`."⟩,
  ⟨"RpBatch", "Reply for `batch` operation."⟩,
  ⟨"RpCopy", "Reply for `copy` operation."⟩,
  ⟨"RpCreate", "Reply for `create` operation"⟩,
  ⟨"RpDelete", "Reply for `delete` operation"⟩,
  ⟨"RpList", "Reply for `list` operation."⟩,
  ⟨"RpPresign", "Reply for `presign` operation."⟩,
  ⟨"RpRead", "Reply for `read` operation."⟩,
  ⟨"RpRename", "Reply for `rename` operation."⟩,
  ⟨"RpScan", "Reply for `scan` operation."⟩,
  ⟨"RpStat", "Reply for `stat` operation."⟩,
  ⟨"RpWrite", "Reply for `write` operation."⟩]

/-- The `trait` array of the record, verbatim. -/
def traitItems : List SidebarEntry := [
  ⟨"Accessor", "Underlying trait of all backends for implementors."⟩,
  ⟨"Layer", "Layer is used to intercept the operations on the underlying storage."⟩,
  ⟨"LayeredAccessor", "LayeredAccessor is layered accessor that forward all not implemented method to inner."⟩]

/-- The `type` array of the record, verbatim. -/
def typeItems : List SidebarEntry := [
  ⟨"FusedAccessor", "FusedAccessor is the type erased accessor with `Box<dyn Read>`."⟩]

/-- The whole literal record assigned to `window.SIDEBAR_ITEMS`: category keys
in source order, each with its array of entries. -/
def SIDEBAR_ITEMS : List (String × List SidebarEntry) :=
  [("constant", constantItems), ("enum", enumItems), ("fn", fnItems),
   ("mod", modItems), ("struct", structItems), ("trait", traitItems),
   ("type", typeItems)]

/-- Strict lexicographic order on strings as character (code point) lists. -/
def lexLtChars : List Char → List Char → Bool
  | [], [] => false
  | [], _ :: _ => true
  | _ :: _, [] => false
  | a :: as, b :: bs =>
    if a.toNat < b.toNat then true
    else if b.toNat < a.toNat then false
    else lexLtChars as bs

/-- The names of a category's entries are in strictly ascending
lexicographic order. -/
def namesStrictAscending : List SidebarEntry → Bool
  | [] => true
  | [_] => true
  | a :: b :: t =>
    lexLtChars a.name.data b.name.data && namesStrictAscending (b :: t)

/-- Every entry of a category has a nonempty name and the names are strictly
ascending (hence pairwise distinct). -/
def entriesOk (l : List SidebarEntry) : Bool :=
  l.all (fun e => !e.name.isEmpty) && namesStrictAscending l

/-- C9: in the `SIDEBAR_ITEMS` record, every category's entries are
name/description pairs with nonempty names, the names within each category are
pairwise distinct, and they appear in ascending lexicographic order. -/
theorem sidebar_items_wellformed :
    (SIDEBAR_ITEMS.all fun kv => entriesOk kv.2) = true ∧
    ∀ kv ∈ SIDEBAR_ITEMS, (kv.2.map fun e => e.name).Nodup := by
  constructor
  · rfl
  · decide

/-- Modelled from the spec: the `Operation` enum's variants are not under
`src/` (the sidebar lists only the enum's name), so the closed tag set is
taken from the spec: Read, Write, Stat, Delete, List, Scan, Copy, Rename,
Presign, Batch. -/
inductive Operation where
  | read
  | write
  | stat
  | delete
  | list
  | scan
  | copy
  | rename
  | presign
  | batch
deriving DecidableEq, Repr, Fintype

/-- All ten spec-level operation tags. -/
def Operation.all : List Operation :=
  [.read, .write, .stat, .delete, .list, .scan, .copy, .rename, .presign, .batch]

/-- The name of the reply struct for an operation tag: `Rp` followed by the
capitalised operation name, matching the sidebar's `struct` entries. -/
def replyName : Operation → String
  | .read => "RpRead"
  | .write => "RpWrite"
  | .stat => "RpStat"
  | .delete => "RpDelete"
  | .list => "RpList"
  | .scan => "RpScan"
  | .copy => "RpCopy"
  | .rename => "RpRename"
  | .presign => "RpPresign"
  | .batch => "RpBatch"

/-- `a` is a prefix of `b`, on character lists. -/
def isPrefixOfB : List Char → List Char → Bool
  | [], _ => true
  | _ :: _, [] => false
  | a :: as, b :: bs => a == b && isPrefixOfB as bs

/-- The reply-struct names the module declares: every `struct` entry of the
sidebar whose name begins with `Rp`. -/
def rpStructNames : List String :=
  (structItems.map fun e => e.name).filter fun n => isPrefixOfB "Rp".data n.data

/-- Every tag of `Operation` is listed in `Operation.all`. -/
lemma operation_all_complete : ∀ op : Operation, op ∈ Operation.all := by
  intro op; cases op <;> decide

/-- C1 counterexample: the module declares the reply struct `RpCreate`
(documented as the reply for the `create` operation), yet no tag of the
spec's closed ten-tag `Operation` set has `RpCreate` as its reply name. -/
theorem rpCreate_outside_ten_tags :
    "RpCreate" ∈ rpStructNames ∧ ∀ op : Operation, replyName op ≠ "RpCreate" := by
  decide

/-- The eleven operation tags the module's declared reply structs actually
witness: the spec's ten plus `create` (the sidebar declares `RpCreate`,
"Reply for `create` operation"). -/
inductive OperationFull where
  | create
  | read
  | write
  | stat
  | delete
  | list
  | scan
  | copy
  | rename
  | presign
  | batch
deriving DecidableEq, Repr, Fintype

/-- All eleven tags. -/
def OperationFull.all : List OperationFull :=
  [.create, .read, .write, .stat, .delete, .list, .scan, .copy, .rename,
   .presign, .batch]

/-- Reply-struct name of each of the eleven tags. -/
def replyNameFull : OperationFull → String
  | .create => "RpCreate"
  | .read => "RpRead"
  | .write => "RpWrite"
  | .stat => "RpStat"
  | .delete => "RpDelete"
  | .list => "RpList"
  | .scan => "RpScan"
  | .copy => "RpCopy"
  | .rename => "RpRename"
  | .presign => "RpPresign"
  | .batch => "RpBatch"

/-- C1 (amended): the set of operation kinds the module's reply structs
witness is closed and contains exactly eleven tags — the spec's ten plus
Create: every declared reply struct corresponds to one of these eleven tags,
and every tag has its reply struct declared. -/
theorem reply_types_match_eleven_tags :
    (∀ op : OperationFull, op ∈ OperationFull.all) ∧
    (∀ n ∈ rpStructNames, ∃ op : OperationFull, replyNameFull op = n) ∧
    (∀ op : OperationFull, replyNameFull op ∈ rpStructNames) := by
  refine ⟨fun op => by cases op <;> decide, ?_, ?_⟩ <;> decide

/-- C2 counterexample: the module declares eleven pairwise-distinct reply
structs while the spec's closed `Operation` set has only ten tags, and the
declared `RpCreate` is the reply of none of them — so the tag/reply pairing
is not a bijection between the ten tags and the declared reply structs. -/
theorem rp_structs_outnumber_ten_tags :
    rpStructNames.Nodup ∧ rpStructNames.length = 11 ∧
    (Operation.all.map replyName).length = 10 ∧
    "RpCreate" ∈ rpStructNames ∧ "RpCreate" ∉ Operation.all.map replyName := by
  decide

/-- C2 (amended): the pairing between the eleven-tag operation set (the
spec's ten plus Create) and the module's declared reply structs is a
bijection: reply names are injective over the tags, every tag's reply struct
is declared, and every declared reply struct is the reply of exactly one tag
(the names are pairwise distinct). -/
theorem reply_pairing_bijective_eleven :
    (∀ a : OperationFull, ∀ b : OperationFull, replyNameFull a = replyNameFull b → a = b) ∧
    (∀ op : OperationFull, replyNameFull op ∈ rpStructNames) ∧
    (∀ n ∈ rpStructNames, ∃ op : OperationFull, replyNameFull op = n) ∧
    rpStructNames.Nodup := by
  refine ⟨?_, ?_, ?_, ?_⟩ <;> decide

/-! ## Path normalization (C3) -/

/-- Collapse runs of `/` after a previous character `prev`: a separator
directly following a separator is dropped. -/
def squeezeFrom (prev : Char) : List Char → List Char
  | [] => []
  | c :: t =>
    if prev == '/' && c == '/' then squeezeFrom prev t
    else c :: squeezeFrom c t

/-- Modelled from the spec: the body of `normalize_path` is not under `src/`
(the sidebar lists only its name and doc line), so normalization is modelled
from the spec's path invariants: a single separator convention with no
redundant (consecutive) separators, paths absolute relative to the backend's
root (so a leading root separator is not part of the normalized form), and a
trailing separator kept exactly when the path is a directory marker. -/
def squeezeSlashes : List Char → List Char
  | [] => []
  | c :: t => c :: squeezeFrom c t

/-- No character `/` directly follows `prev` or a `/` inside the list. -/
def okFrom (prev : Char) : List Char → Bool
  | [] => true
  | c :: t => !(prev == '/' && c == '/') && okFrom c t

/-- The list has no two consecutive `/` characters. -/
def noDouble : List Char → Bool
  | [] => true
  | c :: t => okFrom c t

/-- Drop the root separator at the head, if any. -/
def dropRoot : List Char → List Char
  | [] => []
  | c :: t => if c == '/' then t else c :: t

/-- Normalize a path's characters: collapse redundant separators, then drop
the leading root separator. -/
def normChars (l : List Char) : List Char :=
  dropRoot (squeezeSlashes l)

/-- `normalize_path`, modelled from the spec (see `squeezeSlashes`). -/
def normalize_path (p : String) : String :=
  ⟨normChars p.data⟩

lemma okFrom_squeezeFrom (l : List Char) : ∀ prev, okFrom prev (squeezeFrom prev l) = true := by
  induction l with
  | nil => intro prev; rfl
  | cons c t ih =>
    intro prev
    by_cases h : (prev == '/' && c == '/') = true
    · simp [squeezeFrom, h, ih prev]
    · have h' : (prev == '/' && c == '/') = false := by simpa using h
      simp [squeezeFrom, h', okFrom, ih c]

lemma squeezeFrom_eq_self (l : List Char) :
    ∀ prev, okFrom prev l = true → squeezeFrom prev l = l := by
  induction l with
  | nil => intro prev _; rfl
  | cons c t ih =>
    intro prev h
    simp only [okFrom, Bool.and_eq_true, Bool.not_eq_true'] at h
    simp [squeezeFrom, h.1, ih c h.2]

lemma noDouble_squeezeSlashes (l : List Char) : noDouble (squeezeSlashes l) = true := by
  cases l with
  | nil => rfl
  | cons c t => simpa only [squeezeSlashes, noDouble] using okFrom_squeezeFrom t c

lemma squeezeSlashes_eq_self (l : List Char) (h : noDouble l = true) :
    squeezeSlashes l = l := by
  cases l with
  | nil => rfl
  | cons c t =>
    simp only [noDouble] at h
    simp only [squeezeSlashes]
    rw [squeezeFrom_eq_self t c h]

lemma noDouble_dropRoot (l : List Char) (h : noDouble l = true) :
    noDouble (dropRoot l) = true := by
  cases l with
  | nil => rfl
  | cons c t =>
    cases hc : c == '/' with
    | false => simpa [dropRoot, hc, noDouble] using h
    | true =>
      simp only [dropRoot, hc, if_true]
      cases t with
      | nil => rfl
      | cons d t' =>
        simp only [noDouble, okFrom, Bool.and_eq_true] at h
        simpa only [noDouble] using h.2

lemma dropRoot_dropRoot (l : List Char) (h : noDouble l = true) :
    dropRoot (dropRoot l) = dropRoot l := by
  cases l with
  | nil => rfl
  | cons c t =>
    cases hc : c == '/' with
    | false => simp [dropRoot, hc]
    | true =>
      simp only [dropRoot, hc, if_true]
      cases t with
      | nil => rfl
      | cons d t' =>
        simp only [noDouble, okFrom, Bool.and_eq_true, Bool.not_eq_true'] at h
        have hd : (d == '/') = false := by
          have h1 := h.1
          rw [hc] at h1
          simpa using h1
        simp [dropRoot, hd]

lemma normChars_idem (l : List Char) : normChars (normChars l) = normChars l := by
  have h1 : noDouble (squeezeSlashes l) = true := noDouble_squeezeSlashes l
  have h2 : noDouble (dropRoot (squeezeSlashes l)) = true := noDouble_dropRoot _ h1
  simp only [normChars]
  rw [squeezeSlashes_eq_self _ h2]
  exact dropRoot_dropRoot _ h1

/-- C3: path normalization is idempotent — for every path string, including
the empty string, the root path and paths with redundant separators,
normalizing an already-normalized path yields the identical string. -/
theorem normalize_path_idempotent (p : String) :
    normalize_path (normalize_path p) = normalize_path p := by
  simp only [normalize_path]
  exact congrArg String.mk (normChars_idem p.data)

/-! ## Operation/reply data model and the Accessor contract (C4-C8) -/

/-- Entity mode of a stat reply: file, directory or unknown. -/
inductive EntryMode where
  | file
  | dir
  | unknown
deriving DecidableEq, Repr

/-- Entity metadata carried by replies (spec: size, last-modified,
content-type, etag, entity mode). -/
structure Metadata where
  mode : EntryMode
  size : Nat
  contentType : Option String
  etag : Option String
  lastModified : Option Nat
deriving DecidableEq, Repr

/-- `BytesRange(offset, size)` carries a range of content (sidebar struct). -/
structure BytesRange where
  offset : Option Nat
  size : Option Nat
deriving DecidableEq, Repr

/-- The intended sub-operation of a presign request (spec: read/write). -/
inductive PresignOperation where
  | read
  | write
deriving DecidableEq, Repr

/-- `PresignedRequest` is a presigned request returned by `presign` (sidebar
struct; spec: method, URL, headers, expiry). -/
structure PresignedRequest where
  method : String
  uri : String
  headers : List (String × String)
  expiry : Nat
deriving DecidableEq, Repr

/-- Modelled from the spec: the closed error kind set of §7; the error
construction code (`new_request_build_error`, `parse_error_response`, …) is
not under `src/`. -/
inductive ErrorKind where
  | notFound
  | alreadyExists
  | permissionDenied
  | invalidArgument
  | unsupported
  | backendUnavailable
  | cancelled
  | aggregate
deriving DecidableEq, Repr, Fintype

/-- All eight error kinds. -/
def ErrorKind.all : List ErrorKind :=
  [.notFound, .alreadyExists, .permissionDenied, .invalidArgument,
   .unsupported, .backendUnavailable, .cancelled, .aggregate]

/-- Modelled from the spec: the request-argument value objects of §3, one per
non-batch operation (the `Accessor` trait's argument types are not under
`src/`). -/
inductive BasicRequest where
  | read (path : String) (range : Option BytesRange) (metadataOnly : Bool)
  | write (path : String) (content : List Nat) (sizeHint : Option Nat)
  | stat (path : String)
  | delete (path : String)
  | list (path : String) (depth : Nat) (cursor : Option String)
  | scan (path : String) (depth : Nat) (cursor : Option String)
  | copy (path : String) (dest : String)
  | rename (path : String) (dest : String)
  | presign (path : String) (expiry : Nat) (subop : PresignOperation)
deriving DecidableEq, Repr

/-- A request: a single non-batch operation, or a batch carrying an ordered
sequence of sub-operations. -/
inductive OpRequest where
  | basic (r : BasicRequest)
  | batch (subs : List BasicRequest)
deriving DecidableEq, Repr

/-- The operation tag of a basic request. -/
def BasicRequest.op : BasicRequest → Operation
  | .read .. => .read
  | .write .. => .write
  | .stat _ => .stat
  | .delete _ => .delete
  | .list .. => .list
  | .scan .. => .scan
  | .copy .. => .copy
  | .rename .. => .rename
  | .presign .. => .presign

/-- The operation tag of a request. -/
def OpRequest.op : OpRequest → Operation
  | .basic r => r.op
  | .batch _ => .batch

/-- Modelled from the spec: the reply value objects of §3, one per non-batch
operation. -/
inductive BasicReply where
  | read (meta : Metadata) (content : List Nat)
  | write (etag : Option String)
  | stat (meta : Metadata)
  | delete
  | list (entries : List (String × Metadata)) (cursor : Option String)
  | scan (entries : List (String × Metadata)) (cursor : Option String)
  | copy
  | rename
  | presign (req : PresignedRequest)
deriving DecidableEq, Repr

/-- `BatchedReply`: the ordered per-sub-operation outcomes of a `batch`
operation (sidebar enum; spec: success reply or classified error at each
position). -/
abbrev BatchedReply := List (Except ErrorKind BasicReply)

/-- A reply: the reply of a single operation, or the batch aggregate. -/
inductive Reply where
  | basic (r : BasicReply)
  | batch (outcomes : BatchedReply)

/-- Modelled from the spec: the `Accessor` contract (§4.3) — a uniform
interface taking a request and the backend state, returning the new state and
a typed reply or a classified error (the `Accessor` trait's code is not under
`src/`; state passing stands for the backend's side effects). -/
structure Accessor (σ : Type) where
  handle : σ → OpRequest → σ × Except ErrorKind Reply

/-- Default Batch behavior (§4.5): execute each sub-operation in input order
through the given basic handler, threading the state, recording each outcome
at its own position and continuing after failures. -/
def runBatch {σ : Type} (h : σ → BasicRequest → σ × Except ErrorKind BasicReply) :
    σ → List BasicRequest → σ × BatchedReply
  | s, [] => (s, [])
  | s, r :: rs =>
    let p := h s r
    let q := runBatch h p.1 rs
    (q.1, p.2 :: q.2)

/-- Build an accessor from a handler of the nine basic operations; `batch` is
the default ordered, partial-failure execution of `runBatch`. -/
def Accessor.ofBasic {σ : Type} (h : σ → BasicRequest → σ × Except ErrorKind BasicReply) :
    Accessor σ where
  handle s r :=
    match r with
    | .basic b => let p := h s b; (p.1, p.2.map Reply.basic)
    | .batch subs => let p := runBatch h s subs; (p.1, .ok (.batch p.2))

/-- Modelled from the spec: the `Layer` contract with the forwarding core's
override record (§4.4, §9) — a sparse mapping from operation tags to
replacement behaviors; an operation with no override keeps the default
forwarding behavior (the `Layer`/`LayeredAccessor` trait code is not under
`src/`). -/
structure Layer (σ : Type) where
  overrides : Operation → Option (Accessor σ → σ → OpRequest → σ × Except ErrorKind Reply)

/-- The layered accessor produced by applying a layer over an inner accessor:
an overridden operation runs the layer's replacement behavior (which may call
the inner accessor explicitly); every other operation is forwarded to the
inner accessor with arguments and reply unchanged. -/
def LayeredAccessor {σ : Type} (L : Layer σ) (inner : Accessor σ) : Accessor σ where
  handle s r :=
    match L.overrides r.op with
    | some f => f inner s r
    | none => inner.handle s r

/-- C4: forwarding transparency — for every operation a layer does not
override, invoking it on the layered accessor yields a state, reply and error
identical to invoking it directly on the inner accessor with the same
arguments. -/
theorem forwarding_transparency {σ : Type} (L : Layer σ) (inner : Accessor σ)
    (s : σ) (r : OpRequest) (h : L.overrides r.op = none) :
    (LayeredAccessor L inner).handle s r = inner.handle s r := by
  simp [LayeredAccessor, h]

/-! ## Capability descriptor merge (C5) -/

/-- Modelled from the spec: a capability descriptor's operation-support view
(§4.2 `supports`); the `AccessorCapability`/`AccessorInfo` bodies are not
under `src/`. -/
def CapabilitySet := Operation → Bool

/-- A layer's own capability declaration: `some b` for an operation the layer
itself implements (declaring support `b`), `none` for an operation it purely
forwards. -/
def LayerCaps := Operation → Option Bool

/-- Capability merge of §4.2: the layer's own declaration wins where present;
a purely forwarded operation inherits the inner accessor's support unchanged. -/
def mergeCaps (layer : LayerCaps) (inner : CapabilitySet) : CapabilitySet :=
  fun op => (layer op).getD (inner op)

/-- Composition of two layers' declarations, outermost first. -/
def composeLayerCaps (outer inner : LayerCaps) : LayerCaps :=
  fun op =>
    match outer op with
    | some b => some b
    | none => inner op

/-- C5: capability merge is override-correct and composition-order-correct —
an operation the layer implements gets the layer's declared support, an
operation it forwards inherits the inner support unchanged, and merging a
chain of layers all at once equals merging one layer at a time. -/
theorem capability_merge_correct (L : LayerCaps) (inner : CapabilitySet) (op : Operation) :
    ((∀ b, L op = some b → mergeCaps L inner op = b) ∧
      (L op = none → mergeCaps L inner op = inner op)) ∧
    ∀ outer mid : LayerCaps,
      mergeCaps outer (mergeCaps mid inner) op =
        mergeCaps (composeLayerCaps outer mid) inner op := by
  refine ⟨⟨fun b hb => ?_, fun hn => ?_⟩, fun outer mid => ?_⟩
  · simp [mergeCaps, hb]
  · simp [mergeCaps, hn]
  · simp only [mergeCaps, composeLayerCaps]
    cases outer op <;> simp

/-! ## A deterministic in-memory backend (C6-C8 are settled against it) -/

/-- Modelled from the spec: the deterministic in-memory backend the spec's
testable properties use (§8); state is a path-to-content association list. -/
abbrev Mem := List (String × List Nat)

/-- Content stored at a path, if any. -/
def Mem.lookupPath : Mem → String → Option (List Nat)
  | [], _ => none
  | kv :: t, p => if kv.1 == p then some kv.2 else Mem.lookupPath t p

/-- Remove every entry at a path. -/
def Mem.removePath (m : Mem) (p : String) : Mem :=
  m.filter fun kv => !(kv.1 == p)

/-- Metadata of a stored content. -/
def metaOf (bytes : List Nat) : Metadata :=
  ⟨.file, bytes.length, none, none, none⟩

/-- Apply an optional byte range to a content. -/
def sliceRange (bytes : List Nat) : Option BytesRange → List Nat
  | none => bytes
  | some rg =>
    match rg.size with
    | none => bytes.drop (rg.offset.getD 0)
    | some n => (bytes.drop (rg.offset.getD 0)).take n

/-- HTTP method of a presign sub-operation. -/
def presignMethod : PresignOperation → String
  | .read => "GET"
  | .write => "PUT"

/-- The in-memory backend's handler of the nine basic operations.  `presign`
only constructs the request descriptor; `read`, `stat`, `list` and `scan`
leave the state unchanged; failures are classified (`notFound`). -/
def memHandleBasic : Mem → BasicRequest → Mem × Except ErrorKind BasicReply
  | m, .read p rg metadataOnly =>
    match Mem.lookupPath m p with
    | none => (m, .error .notFound)
    | some bytes =>
      (m, .ok (.read (metaOf bytes) (if metadataOnly then [] else sliceRange bytes rg)))
  | m, .write p content _ => ((p, content) :: Mem.removePath m p, .ok (.write none))
  | m, .stat p =>
    match Mem.lookupPath m p with
    | none => (m, .error .notFound)
    | some bytes => (m, .ok (.stat (metaOf bytes)))
  | m, .delete p => (Mem.removePath m p, .ok .delete)
  | m, .list p _ _ =>
    (m, .ok (.list ((m.filter fun kv => isPrefixOfB p.data kv.1.data).map
      fun kv => (kv.1, metaOf kv.2)) none))
  | m, .scan p _ _ =>
    (m, .ok (.scan ((m.filter fun kv => isPrefixOfB p.data kv.1.data).map
      fun kv => (kv.1, metaOf kv.2)) none))
  | m, .copy p dest =>
    match Mem.lookupPath m p with
    | none => (m, .error .notFound)
    | some bytes => ((dest, bytes) :: Mem.removePath m dest, .ok .copy)
  | m, .rename p dest =>
    match Mem.lookupPath m p with
    | none => (m, .error .notFound)
    | some bytes => ((dest, bytes) :: Mem.removePath (Mem.removePath m p) dest, .ok .rename)
  | m, .presign p expiry so => (m, .ok (.presign ⟨presignMethod so, p, [], expiry⟩))

/-- The in-memory backend as an `Accessor` (batch by the default forwarding
core behavior). -/
def memAccessor : Accessor Mem := Accessor.ofBasic memHandleBasic

/-- The only error kind the in-memory backend's basic handler ever returns is
`notFound`. -/
lemma memHandleBasic_error (m : Mem) (r : BasicRequest) (e : ErrorKind)
    (h : (memHandleBasic m r).2 = Except.error e) : e = .notFound := by
  cases r with
  | read p rg metadataOnly =>
    cases hl : Mem.lookupPath m p with
    | none => simp [memHandleBasic, hl] at h; exact h.symm
    | some bytes => simp [memHandleBasic, hl] at h
  | write p content sizeHint => simp [memHandleBasic] at h
  | stat p =>
    cases hl : Mem.lookupPath m p with
    | none => simp [memHandleBasic, hl] at h; exact h.symm
    | some bytes => simp [memHandleBasic, hl] at h
  | delete p => simp [memHandleBasic] at h
  | list p depth cursor => simp [memHandleBasic] at h
  | scan p depth cursor => simp [memHandleBasic] at h
  | copy p dest =>
    cases hl : Mem.lookupPath m p with
    | none => simp [memHandleBasic, hl] at h; exact h.symm
    | some bytes => simp [memHandleBasic, hl] at h
  | rename p dest =>
    cases hl : Mem.lookupPath m p with
    | none => simp [memHandleBasic, hl] at h; exact h.symm
    | some bytes => simp [memHandleBasic, hl] at h
  | presign p expiry so => simp [memHandleBasic] at h

/-- C6: batch ordering and partial failure — a batch reply is the ordered
sequence of per-sub-operation outcomes, of exactly the request's length and in
positional correspondence with it, and the outcome at any position is followed
by the execution of all later sub-operations whether or not it failed. -/
theorem batch_order_and_partial_failure {σ : Type}
    (h : σ → BasicRequest → σ × Except ErrorKind BasicReply) (s : σ) :
    (∀ subs, ((Accessor.ofBasic h).handle s (.batch subs)).2 =
      .ok (.batch (runBatch h s subs).2)) ∧
    (∀ subs, (runBatch h s subs).2.length = subs.length) ∧
    (∀ pre r post,
      runBatch h s (pre ++ r :: post) =
        ((runBatch h (h (runBatch h s pre).1 r).1 post).1,
          (runBatch h s pre).2 ++ (h (runBatch h s pre).1 r).2 ::
            (runBatch h (h (runBatch h s pre).1 r).1 post).2)) := by
  refine ⟨fun subs => rfl, fun subs => ?_, fun pre r post => ?_⟩
  · induction subs generalizing s with
    | nil => rfl
    | cons a t ih => simp [runBatch, ih]
  · induction pre generalizing s with
    | nil => simp [runBatch]
    | cons a t ih => simp [runBatch, ih]

/-- C7: closed error classification — the error kind set is exactly the
closed eight-kind enumeration, and every failure of a non-batch operation of
the in-memory backend carries one of the seven non-aggregate kinds (the
`aggregate` kind never escapes a basic operation; the batch reply carries the
per-position outcomes). -/
theorem error_classification_closed :
    (∀ e : ErrorKind, e ∈ ErrorKind.all) ∧
    (∀ (m : Mem) (r : BasicRequest) (e : ErrorKind),
      (memHandleBasic m r).2 = Except.error e → e ∈ ErrorKind.all ∧ e ≠ .aggregate) := by
  constructor
  · intro e; cases e <;> decide
  · intro m r e h
    have he : e = .notFound := memHandleBasic_error m r e h
    subst he
    exact ⟨by decide, by decide⟩

/-- C8: presign is effect-free on the backend — for every state, path and
presign arguments, the presign operation leaves the backend state unchanged
and only constructs and returns the presigned-request descriptor (method,
URL, headers, expiry). -/
theorem presign_effect_free (m : Mem) (p : String) (expiry : Nat)
    (so : PresignOperation) :
    memAccessor.handle m (.basic (.presign p expiry so)) =
      (m, .ok (.basic (.presign ⟨presignMethod so, p, [], expiry⟩))) := rfl

/-- A demonstration layer that overrides only `read` (short-circuiting it
with a `cancelled` error) and forwards every other operation. -/
def demoLayer : Layer Mem :=
  ⟨fun op =>
    match op with
    | .read => some fun _ s _ => (s, .error .cancelled)
    | _ => none⟩

/-- C4 witness: the demonstration layer does not override `stat`, and a
`stat` call on the layered accessor equals the same call on the inner
in-memory backend. -/
theorem forwarding_transparency_witness :
    (LayeredAccessor demoLayer memAccessor).handle [] (.basic (.stat "a")) =
      memAccessor.handle [] (.basic (.stat "a")) :=
  forwarding_transparency demoLayer memAccessor [] (.basic (.stat "a")) rfl

/-! ## The script's observable effect (C10) -/

/-- The evaluation of the script: its single statement assigns the literal
record to the `SIDEBAR_ITEMS` property of `window`, modelled as a map from
property names to values (`encode` embeds the record into the window's value
type). -/
def evalSidebarScript {V : Type} (encode : List (String × List SidebarEntry) → V)
    (window : String → Option V) : String → Option V :=
  fun prop => if prop = "SIDEBAR_ITEMS" then some (encode SIDEBAR_ITEMS) else window prop

/-- C10: evaluating the script has exactly one observable effect — it sets
the single property `SIDEBAR_ITEMS` of `window` to the fixed literal record,
leaves every other property unchanged, and any two evaluations (from any two
prior windows) assign the identical value. -/
theorem sidebar_script_single_effect :
    ∀ (V : Type) (encode : List (String × List SidebarEntry) → V)
      (w w' : String → Option V),
      evalSidebarScript encode w "SIDEBAR_ITEMS" = some (encode SIDEBAR_ITEMS) ∧
      (∀ p, p ≠ "SIDEBAR_ITEMS" → evalSidebarScript encode w p = w p) ∧
      evalSidebarScript encode w "SIDEBAR_ITEMS" = evalSidebarScript encode w' "SIDEBAR_ITEMS" := by
  intro V encode w w'
  refine ⟨?_, fun p hp => ?_, ?_⟩
  · simp [evalSidebarScript]
  · simp [evalSidebarScript, hp]
  · simp [evalSidebarScript]

/-- Concrete normalization checks: the empty path, the root path and paths
with redundant separators. -/
lemma normalize_path_examples :
    normalize_path "" = "" ∧ normalize_path "/" = "" ∧
    normalize_path "a//b/" = "a/b/" ∧ normalize_path "/a///b//c" = "a/b/c" :=
  ⟨rfl, rfl, rfl, rfl⟩

/-- Concrete batch check (the spec's §8 scenario shape): of five
sub-operations the third fails, the reply still has five outcomes in input
order, the failure is recorded at its position, and the fourth and fifth
sub-operations are still executed. -/
lemma batch_demo :
    (memAccessor.handle [] (.batch
      [.write "a" [1, 2] none, .write "b" [3] none, .stat "missing",
        .delete "a", .stat "b"])).2 =
      .ok (.batch
        [.ok (.write none), .ok (.write none), .error .notFound,
          .ok .delete, .ok (.stat ⟨.file, 1, none, none, none⟩)]) := rfl
